import Mathlib

/-!
Shallow embedding of `src/webui/index.js` of ipfs-desktop: the module that
manages the single web-ui window, the URL it loads, and the HTTP header
rewriting done on the default Electron session.

JavaScript objects holding HTTP headers are modelled as association lists
with exact (case-sensitive) string keys, matching JS property access.
Electron delivers response-header values as string arrays and request-header
values as strings; `JsVal` covers both, with JS truthiness.
-/

namespace WebUI

/-- A JS value stored in a header record: a plain string or a string array. -/
inductive JsVal where
  | str (s : String)
  | arr (a : List String)
  deriving DecidableEq, Repr

/-- JS truthiness of a header value: an array is always truthy, a string is
truthy iff nonempty. -/
def JsVal.truthy : JsVal → Bool
  | .str s => s ≠ ""
  | .arr _ => true

/-- A JS object used as a header map: association list, exact string keys. -/
abbrev Headers := List (String × JsVal)

/-- JS property read `o[k]`: the value at the first (unique) exact key. -/
def jsGet (o : Headers) (k : String) : Option JsVal :=
  (o.find? (fun p => p.1 = k)).map (fun p => p.2)

/-- JS property write `o[k] = v`: replace the value when the exact key is
present, otherwise append the new key. -/
def jsSet (o : Headers) (k : String) (v : JsVal) : Headers :=
  if (o.find? (fun p => p.1 = k)).isSome then
    o.map (fun p => if p.1 = k then (k, v) else p)
  else
    o ++ [(k, v)]

/-- How JS stringifies the payload of an optional value when it is fed to
`URLSearchParams.set`: `undefined` becomes the string "undefined". -/
def jsStr : Option String → String
  | none => "undefined"
  | some s => s

/-- `apiOrigin` from src/webui/index.js lines 66-73. The external library
calls `toUri(m, assumeHttp)` and `new URL(u).origin` are abstract
parameters; the module itself only branches on JS falsiness of the
multiaddress (null/undefined/empty string) and composes the two. -/
def apiOrigin (toUri urlOrigin : String → String) : Option String → String
  | none => "null"
  | some m => if m = "" then "null" else urlOrigin (toUri m)

/-- The literal origin of the embedded page, scheme webui with opaque host
(src/webui/index.js line 190). -/
def webuiOrigin : String := "webui://-"

/-- The exact header-name spelling checked by the code (line 191). -/
def acao : String := "Access-Control-Allow-Origin"

/-- The User-Agent string built at src/webui/index.js line 185 from the
application and Electron versions. -/
def userAgent (version electronVersion : String) : String :=
  "ipfs-desktop/" ++ version ++ " (Electron " ++ electronVersion ++ ")"

/-- The `onBeforeSendHeaders` interceptor (lines 183-187): overwrite the
`Origin` property with `apiOrigin apiAddress`, overwrite `User-Agent`, and
invoke the callback with `cancel: false` and the mutated headers. Returns
(cancel flag, delivered request headers). -/
def onBeforeSendHeaders (toUri urlOrigin : String → String)
    (version electronVersion : String) (apiAddress : Option String)
    (requestHeaders : Headers) : Bool × Headers :=
  let h1 := jsSet requestHeaders "Origin"
    (.str (apiOrigin toUri urlOrigin apiAddress))
  let h2 := jsSet h1 "User-Agent" (.str (userAgent version electronVersion))
  (false, h2)

/-- The `onHeadersReceived` interceptor (lines 192-200): when the response
headers object is truthy and carries a truthy value at the exact key
`Access-Control-Allow-Origin`, that property is overwritten with the
`webuiOrigin` string; the (possibly mutated) headers are delivered to the
callback. -/
def onHeadersReceived (responseHeaders : Option Headers) : Option Headers :=
  match responseHeaders with
  | none => none
  | some hs =>
    match jsGet hs acao with
    | some v => if v.truthy then some (jsSet hs acao (.str webuiOrigin)) else some hs
    | none => some hs

theorem find_map_self (t : Headers) (k : String) (v : JsVal) :
    (t.map (fun p => if p.1 = k then (k, v) else p)).find? (fun p => p.1 = k) =
      if (t.find? (fun p => p.1 = k)).isSome then some (k, v) else none := by
  induction t with
  | nil => rfl
  | cons p t ih =>
    by_cases hp : p.1 = k
    · rw [List.map_cons, if_pos hp, List.find?_cons_of_pos _ (by simp),
        List.find?_cons_of_pos _ (by simp [hp])]
      simp
    · rw [List.map_cons, if_neg hp, List.find?_cons_of_neg _ (by simp [hp]),
        List.find?_cons_of_neg _ (by simp [hp]), ih]

theorem find_map_other (t : Headers) (k k' : String) (v : JsVal) (h : k' ≠ k) :
    (t.map (fun p => if p.1 = k then (k, v) else p)).find? (fun p => p.1 = k') =
      t.find? (fun p => p.1 = k') := by
  have hkk : ¬ (k = k') := fun hc => h hc.symm
  induction t with
  | nil => rfl
  | cons p t ih =>
    by_cases hp : p.1 = k
    · have hp' : ¬ p.1 = k' := by
        rw [hp]
        exact hkk
      rw [List.map_cons, if_pos hp, List.find?_cons_of_neg _ (by simp [hkk]),
        List.find?_cons_of_neg _ (by simp [hp']), ih]
    · rw [List.map_cons, if_neg hp]
      by_cases hq : p.1 = k'
      · rw [List.find?_cons_of_pos _ (by simp [hq]),
          List.find?_cons_of_pos _ (by simp [hq])]
      · rw [List.find?_cons_of_neg _ (by simp [hq]),
          List.find?_cons_of_neg _ (by simp [hq]), ih]

theorem find_append_other (t : Headers) (k k' : String) (v : JsVal)
    (h : k' ≠ k) :
    (t ++ [(k, v)]).find? (fun p => p.1 = k') = t.find? (fun p => p.1 = k') := by
  have hkk : ¬ (k = k') := fun hc => h hc.symm
  rw [List.find?_append, List.find?_cons_of_neg _ (by simp [hkk])]
  simp

theorem jsGet_jsSet_self (o : Headers) (k : String) (v : JsVal) :
    jsGet (jsSet o k v) k = some v := by
  unfold jsGet jsSet
  by_cases h1 : (o.find? (fun p => p.1 = k)).isSome
  · rw [if_pos h1, find_map_self, if_pos h1]
    rfl
  · have hnone : o.find? (fun p => p.1 = k) = none := by
      cases hfind : o.find? (fun p => p.1 = k) with
      | none => rfl
      | some p => simp [hfind] at h1
    rw [if_neg h1, List.find?_append, hnone]
    simp [List.find?]

theorem jsGet_jsSet_other (o : Headers) (k k' : String) (v : JsVal)
    (h : k' ≠ k) : jsGet (jsSet o k v) k' = jsGet o k' := by
  unfold jsGet jsSet
  by_cases h1 : (o.find? (fun p => p.1 = k)).isSome
  · rw [if_pos h1, find_map_other o k k' v h]
  · rw [if_neg h1, find_append_other o k k' v h]

/-! ## The module state machine

The exported async function closes over `url` (a mutable URL object),
`window` (the singleton BrowserWindow or null) and `apiAddress` (last known
daemon API multiaddress, or null). `ModState` carries this closure state
plus the observable effects the claims talk about: every URL handed to
`loadURL` (paired with the apiAddress known at that moment), the log lines,
the set of open (created and not yet closed) windows, and dock/focus
state. Windows are identified by the counter value at creation time. -/

/-- The mutable `url` object: hash fragment plus the three query
parameters the module ever sets (`deviceId`, `lng`, `api`). -/
structure UrlState where
  hash : String
  deviceId : Option String
  lng : Option String
  api : Option String
  deriving DecidableEq, Repr

/-- Closure state of the module plus its observable effect log. -/
structure ModState where
  window : Option Nat
  nextId : Nat
  openWindows : List Nat
  url : UrlState
  apiAddress : Option String
  language : Option String
  openWebUIAtLaunch : Option Bool
  loads : List (UrlState × Option String)
  log : List String
  dockVisible : Bool
  focused : Bool
  deriving DecidableEq, Repr

/-- `updateLanguage` (lines 158-160): sets the `lng` query parameter to the
stringified store value (JS stringifies a missing value to "undefined"). -/
def updateLanguage (s : ModState) : ModState :=
  { s with url := { s.url with lng := some (jsStr s.language) } }

/-- A `loadURL(url.toString())` call on the window: records the snapshot of
the URL object, together with the apiAddress known at that moment. -/
def loadURL (s : ModState) : ModState :=
  { s with loads := s.loads ++ [(s.url, s.apiAddress)] }

/-- Body of `launchWindow` (lines 126-149) after the initial
`await getWindow()` has produced the window: optional forced refresh, then
navigation (set the hash to the path and load) when the path is truthy,
focus/show/dock, and the second jitter-avoiding load when the path is
truthy. -/
def launchWindowBody (path : String) (focus forceRefresh : Bool)
    (s : ModState) : ModState :=
  let s1 := if forceRefresh then { s with log := s.log ++ ["[web ui] refresh"] } else s
  let s2 :=
    if path = "" then
      { s1 with log := s1.log ++ ["[web ui] launching web ui"] }
    else
      loadURL { s1 with
        log := s1.log ++ ["[web ui] navigate to " ++ path],
        url := { s1.url with hash := path } }
  let s3 := if focus then { s2 with dockVisible := true, focused := true } else s2
  if path = "" then s3 else loadURL s3

/-- The state reached inside `getWindow` just before the ready-to-show
handler runs `launchWindow('/')`: a fresh window has been created (taking
the next counter value) and stored in the singleton reference, then
`updateLanguage()` ran, then `window.loadURL(url)`, then the ready log. -/
def createdState (s : ModState) : ModState :=
  let s1 : ModState :=
    { s with window := some s.nextId, nextId := s.nextId + 1,
             openWindows := s.openWindows ++ [s.nextId] }
  let s2 := loadURL (updateLanguage s1)
  { s2 with log := s2.log ++ ["[web ui] window ready"] }

/-- `getWindow` (lines 99-124). When a window exists it is returned with no
state change. Otherwise a fresh window is created and loaded
(`createdState`) and the ready-to-show handler runs `launchWindow('/')` —
whose inner `getWindow()` finds the now-non-null window, so it reduces to
`launchWindowBody`. Returns the window id and the updated state. -/
def getWindow (s : ModState) : Nat × ModState :=
  match s.window with
  | some w => (w, s)
  | none => (s.nextId, launchWindowBody "/" true false (createdState s))

/-- `launchWindow` (lines 126-149): `await getWindow()` then the body. -/
def launchWindow (path : String) (focus forceRefresh : Bool)
    (s : ModState) : ModState :=
  launchWindowBody path focus forceRefresh (getWindow s).2

/-- The `ipcMain.on` ipfsd handler (lines 162-171). `ipfsd` is the daemon
status: `none` when no daemon is running, `some a` when the daemon reports
API multiaddress `a`. When the daemon exists and its address differs from
the remembered one, the address is remembered, the `api` query parameter
and language are updated, and the page is reloaded when a window exists. -/
def ipfsdHandler (s : ModState) (ipfsd : Option String) : ModState :=
  match ipfsd with
  | none => s
  | some a =>
    if s.apiAddress = some a then s
    else
      let s1 := updateLanguage { s with apiAddress := some a,
                                        url := { s.url with api := some a } }
      if s1.window.isSome then loadURL s1 else s1

/-- The `window.once close` handler (lines 106-111): null out the singleton
reference, hide the dock, and close the captured window (removing it from
the open set). -/
def closeHandler (s : ModState) : ModState :=
  match s.window with
  | none => s
  | some w =>
    { s with window := none, dockVisible := false,
             openWindows := s.openWindows.erase w }

/-- The webContents crashed handler (lines 42-44): a log line only. -/
def crashedHandler (s : ModState) (event : String) : ModState :=
  { s with log := s.log ++ ["[web ui] crashed: " ++ event] }

/-- The webContents unresponsive handler (lines 46-48): a log line only. -/
def unresponsiveHandler (s : ModState) (event : String) : ModState :=
  { s with log := s.log ++ ["[web ui] unresponsive: " ++ event] }

/-- State after the module body has run (lines 75-97): the first-run
default for `openWebUIAtLaunch` (set to true when the stored value is
null), and the fresh URL object `webui` scheme, hash `/blank`, with the
`deviceId` parameter set from `ctx.countlyDeviceId`. `language` and `cfg`
are the store contents at startup. -/
def initState (devId : String) (language : Option String)
    (cfg : Option Bool) : ModState :=
  { window := none, nextId := 0, openWindows := [],
    url := { hash := "/blank", deviceId := some devId, lng := none, api := none },
    apiAddress := none, language := language,
    openWebUIAtLaunch := if cfg = none then some true else cfg,
    loads := [], log := [], dockVisible := false, focused := false }

/-- The async function the module returns (lines 202-206): launch the
window at `/` iff the stored `openWebUIAtLaunch` value is truthy. -/
def startup (s : ModState) : ModState :=
  if s.openWebUIAtLaunch = some true then launchWindow "/" true false s else s

/-- One observable event of the module: the entry points and event handlers
that can fire after initialisation, plus environment writes to the two
store keys the module reads (language changes and the toggler for
`openWebUIAtLaunch`). -/
inductive Step : ModState → ModState → Prop where
  | getWin (s : ModState) : Step s (getWindow s).2
  | launch (s : ModState) (path : String) (focus forceRefresh : Bool) :
      Step s (launchWindow path focus forceRefresh s)
  | ipfsd (s : ModState) (info : Option String) : Step s (ipfsdHandler s info)
  | close (s : ModState) : Step s (closeHandler s)
  | crashed (s : ModState) (e : String) : Step s (crashedHandler s e)
  | unresponsive (s : ModState) (e : String) : Step s (unresponsiveHandler s e)
  | run (s : ModState) : Step s (startup s)
  | setLanguage (s : ModState) (l : Option String) :
      Step s { s with language := l }
  | toggle (s : ModState) (b : Bool) :
      Step s { s with openWebUIAtLaunch := some b }

/-- States reachable from module initialisation with device id `devId`. -/
inductive Reachable (devId : String) : ModState → Prop where
  | init (language : Option String) (cfg : Option Bool) :
      Reachable devId (initState devId language cfg)
  | step {s t : ModState} : Reachable devId s → Step s t → Reachable devId t

/-- The module invariant: the open-window set mirrors the singleton
reference (so at most one window is open), window ids are below the
counter, and the URL object carries the device id, an `api` parameter
equal to the remembered daemon address, a nonempty hash, and a language
parameter once a window exists; every URL ever loaded satisfied the same
contract at load time. -/
structure Inv (devId : String) (s : ModState) : Prop where
  openEq : s.openWindows = s.window.toList
  winLt : ∀ w, s.window = some w → w < s.nextId
  devEq : s.url.deviceId = some devId
  apiEq : s.url.api = s.apiAddress
  hashNe : s.url.hash ≠ ""
  lngSome : s.window.isSome → s.url.lng.isSome
  loadsOk : ∀ p ∈ s.loads, p.1.deviceId = some devId ∧ p.1.lng.isSome ∧
    p.1.hash ≠ "" ∧ p.1.api = p.2

theorem launchWindowBody_frame (path : String) (focus forceRefresh : Bool)
    (s : ModState) :
    (launchWindowBody path focus forceRefresh s).window = s.window ∧
    (launchWindowBody path focus forceRefresh s).nextId = s.nextId ∧
    (launchWindowBody path focus forceRefresh s).openWindows = s.openWindows ∧
    (launchWindowBody path focus forceRefresh s).apiAddress = s.apiAddress ∧
    (launchWindowBody path focus forceRefresh s).url.deviceId = s.url.deviceId ∧
    (launchWindowBody path focus forceRefresh s).url.lng = s.url.lng ∧
    (launchWindowBody path focus forceRefresh s).url.api = s.url.api ∧
    (launchWindowBody path focus forceRefresh s).language = s.language ∧
    (launchWindowBody path focus forceRefresh s).openWebUIAtLaunch =
      s.openWebUIAtLaunch := by
  unfold launchWindowBody loadURL
  by_cases hp : path = "" <;> by_cases hf : focus <;>
    by_cases hr : forceRefresh <;> simp [hp, hf, hr]

theorem launchWindowBody_hash (path : String) (focus forceRefresh : Bool)
    (s : ModState) :
    (launchWindowBody path focus forceRefresh s).url.hash =
      if path = "" then s.url.hash else path := by
  unfold launchWindowBody loadURL
  by_cases hp : path = "" <;> by_cases hf : focus <;>
    by_cases hr : forceRefresh <;> simp [hp, hf, hr]

theorem launchWindowBody_loads (path : String) (focus forceRefresh : Bool)
    (s : ModState) :
    (launchWindowBody path focus forceRefresh s).loads = s.loads ∨
    (path ≠ "" ∧
      (launchWindowBody path focus forceRefresh s).loads =
        s.loads ++ [({ s.url with hash := path }, s.apiAddress),
                    ({ s.url with hash := path }, s.apiAddress)]) := by
  unfold launchWindowBody loadURL
  by_cases hp : path = ""
  · left
    by_cases hf : focus <;> by_cases hr : forceRefresh <;> simp [hp, hf, hr]
  · right
    refine ⟨hp, ?_⟩
    by_cases hf : focus <;> by_cases hr : forceRefresh <;> simp [hp, hf, hr]

theorem launchWindowBody_inv (devId : String) (path : String)
    (focus forceRefresh : Bool) (s : ModState) (h : Inv devId s)
    (hlng : s.url.lng.isSome) :
    Inv devId (launchWindowBody path focus forceRefresh s) := by
  obtain ⟨f1, f2, f3, f4, f5, f6, f7, -, -⟩ :=
    launchWindowBody_frame path focus forceRefresh s
  constructor
  · rw [f3, f1, h.openEq]
  · intro w hw
    rw [f1] at hw
    rw [f2]
    exact h.winLt w hw
  · rw [f5]
    exact h.devEq
  · rw [f7, f4]
    exact h.apiEq
  · rw [launchWindowBody_hash]
    by_cases hp : path = ""
    · rw [if_pos hp]
      exact h.hashNe
    · rw [if_neg hp]
      exact hp
  · intro _
    rw [f6]
    exact hlng
  · intro p hp
    rcases launchWindowBody_loads path focus forceRefresh s with hl | ⟨hpath, hl⟩
    · rw [hl] at hp
      exact h.loadsOk p hp
    · rw [hl] at hp
      rcases List.mem_append.mp hp with hmem | hmem
      · exact h.loadsOk p hmem
      · have hpe : p = ({ s.url with hash := path }, s.apiAddress) := by
          simpa using hmem
        subst hpe
        exact ⟨h.devEq, hlng, hpath, h.apiEq⟩

theorem createdState_inv (devId : String) (s : ModState) (h : Inv devId s)
    (hw : s.window = none) : Inv devId (createdState s) := by
  have hopen : s.openWindows = [] := by
    rw [h.openEq, hw]
    rfl
  constructor
  · simp [createdState, loadURL, updateLanguage, hopen, Option.toList]
  · intro w hww
    simp [createdState, loadURL, updateLanguage] at hww
    simp [createdState, loadURL, updateLanguage, hww]
  · simpa [createdState, loadURL, updateLanguage] using h.devEq
  · simpa [createdState, loadURL, updateLanguage] using h.apiEq
  · simpa [createdState, loadURL, updateLanguage] using h.hashNe
  · intro _
    simp [createdState, loadURL, updateLanguage]
  · intro p hp
    simp only [createdState, loadURL, updateLanguage] at hp
    rcases List.mem_append.mp hp with hmem | hmem
    · exact h.loadsOk p hmem
    · have hpe : p = ({ s.url with lng := some (jsStr s.language) }, s.apiAddress) := by
        simpa using hmem
      subst hpe
      exact ⟨h.devEq, by simp, h.hashNe, h.apiEq⟩

theorem getWindow_fast (s : ModState) (w : Nat) (h : s.window = some w) :
    getWindow s = (w, s) := by
  unfold getWindow
  rw [h]

theorem getWindow_window (s : ModState) :
    (getWindow s).2.window = some (getWindow s).1 := by
  cases hw : s.window with
  | some w =>
    rw [getWindow_fast s w hw]
    exact hw
  | none =>
    unfold getWindow
    rw [hw]
    show (launchWindowBody "/" true false (createdState s)).window = some s.nextId
    rw [(launchWindowBody_frame _ _ _ _).1]
    simp [createdState, loadURL, updateLanguage]

theorem getWindow_inv (devId : String) (s : ModState) (h : Inv devId s) :
    Inv devId (getWindow s).2 := by
  cases hw : s.window with
  | some w =>
    rw [getWindow_fast s w hw]
    exact h
  | none =>
    unfold getWindow
    rw [hw]
    show Inv devId (launchWindowBody "/" true false (createdState s))
    refine launchWindowBody_inv devId "/" true false _
      (createdState_inv devId s h hw) ?_
    simp [createdState, loadURL, updateLanguage]

theorem launchWindow_inv (devId : String) (path : String)
    (focus forceRefresh : Bool) (s : ModState) (h : Inv devId s) :
    Inv devId (launchWindow path focus forceRefresh s) := by
  unfold launchWindow
  have hg := getWindow_inv devId s h
  refine launchWindowBody_inv devId path focus forceRefresh _ hg
    (hg.lngSome ?_)
  rw [getWindow_window s]
  rfl

theorem ipfsdHandler_inv (devId : String) (s : ModState) (info : Option String)
    (h : Inv devId s) : Inv devId (ipfsdHandler s info) := by
  cases info with
  | none => exact h
  | some a =>
    show Inv devId
      (if s.apiAddress = some a then s
       else if (updateLanguage { s with apiAddress := some a, url := { s.url with api := some a } }).window.isSome then
         loadURL (updateLanguage { s with apiAddress := some a, url := { s.url with api := some a } })
       else updateLanguage { s with apiAddress := some a, url := { s.url with api := some a } })
    by_cases he : s.apiAddress = some a
    · rw [if_pos he]
      exact h
    · rw [if_neg he]
      by_cases hw : s.window.isSome
      · rw [if_pos (by simpa [updateLanguage] using hw)]
        constructor
        · simpa [loadURL, updateLanguage] using h.openEq
        · intro w hww
          simp only [loadURL, updateLanguage] at hww
          have := h.winLt w hww
          simpa [loadURL, updateLanguage] using this
        · simpa [loadURL, updateLanguage] using h.devEq
        · simp [loadURL, updateLanguage]
        · simpa [loadURL, updateLanguage] using h.hashNe
        · intro _
          simp [loadURL, updateLanguage]
        · intro p hp
          simp only [loadURL, updateLanguage] at hp
          rcases List.mem_append.mp hp with hmem | hmem
          · exact h.loadsOk p hmem
          · have hpe :
                p = ({ s.url with api := some a, lng := some (jsStr s.language) }, some a) := by
              simpa using hmem
            subst hpe
            exact ⟨h.devEq, by simp, h.hashNe, by simp⟩
      · rw [if_neg (by simpa [updateLanguage] using hw)]
        constructor
        · simpa [updateLanguage] using h.openEq
        · intro w hww
          simp only [updateLanguage] at hww
          have := h.winLt w hww
          simpa [updateLanguage] using this
        · simpa [updateLanguage] using h.devEq
        · simp [updateLanguage]
        · simpa [updateLanguage] using h.hashNe
        · intro _
          simp [updateLanguage]
        · intro p hp
          simp only [updateLanguage] at hp
          exact h.loadsOk p hp

theorem closeHandler_inv (devId : String) (s : ModState) (h : Inv devId s) :
    Inv devId (closeHandler s) := by
  unfold closeHandler
  cases hw : s.window with
  | none => exact h
  | some w =>
    have hopen : s.openWindows = [w] := by
      rw [h.openEq, hw]
      rfl
    constructor
    · simp [hopen, List.erase_cons_head, Option.toList]
    · intro w' hww
      simp at hww
    · exact h.devEq
    · exact h.apiEq
    · exact h.hashNe
    · intro hww
      simp at hww
    · exact h.loadsOk

theorem inv_init (devId : String) (language : Option String)
    (cfg : Option Bool) : Inv devId (initState devId language cfg) := by
  constructor <;> simp [initState, Option.toList]

theorem inv_step {devId : String} {s t : ModState} (h : Inv devId s)
    (hs : Step s t) : Inv devId t := by
  cases hs with
  | getWin => exact getWindow_inv devId s h
  | launch path focus forceRefresh =>
    exact launchWindow_inv devId path focus forceRefresh s h
  | ipfsd info => exact ipfsdHandler_inv devId s info h
  | close => exact closeHandler_inv devId s h
  | crashed e =>
    exact ⟨h.openEq, h.winLt, h.devEq, h.apiEq, h.hashNe, h.lngSome,
      h.loadsOk⟩
  | unresponsive e =>
    exact ⟨h.openEq, h.winLt, h.devEq, h.apiEq, h.hashNe, h.lngSome,
      h.loadsOk⟩
  | run =>
    unfold startup
    by_cases hc : s.openWebUIAtLaunch = some true
    · rw [if_pos hc]
      exact launchWindow_inv devId "/" true false s h
    · rw [if_neg hc]
      exact h
  | setLanguage l =>
    exact ⟨h.openEq, h.winLt, h.devEq, h.apiEq, h.hashNe, h.lngSome,
      h.loadsOk⟩
  | toggle b =>
    exact ⟨h.openEq, h.winLt, h.devEq, h.apiEq, h.hashNe, h.lngSome,
      h.loadsOk⟩

theorem reachable_inv {devId : String} {s : ModState}
    (h : Reachable devId s) : Inv devId s := by
  induction h with
  | init language cfg => exact inv_init devId language cfg
  | step _ hs ih => exact inv_step ih hs

/-! ## Sample states used by the witnesses -/

/-- Module state right after initialisation with device id "device-1",
stored language "en" and no stored `openWebUIAtLaunch` value. -/
def sampleInit : ModState := initState "device-1" (some "en") none

/-- The state after the first `getWindow` call on `sampleInit`. -/
def sampleOpen : ModState := (getWindow sampleInit).2

/-- The response headers of the C3 witness: upstream CORS header under the
exact spelling the code checks. -/
def sampleHeaders : Headers := [(acao, JsVal.arr ["https://upstream.example"])]

/-- The first URL `sampleOpen` ever loaded, with the apiAddress known at
that moment. -/
def sampleLoad : UrlState × Option String :=
  ({ hash := "/blank", deviceId := some "device-1", lng := some "en",
     api := none }, none)

/-! ## The claims -/

/-- C1: `apiOrigin` returns the literal string "null" when the daemon API
multiaddress argument is absent (null/undefined) or the empty string, and
otherwise returns the origin component of the URI derived from the
multiaddress assuming HTTP — i.e. the URL-origin of the multiaddr-to-uri
conversion applied to the multiaddress. -/
theorem C1_apiOrigin_opaque_or_derived (toUri urlOrigin : String → String)
    (m : String) :
    apiOrigin toUri urlOrigin none = "null" ∧
    apiOrigin toUri urlOrigin (some "") = "null" ∧
    (m ≠ "" → apiOrigin toUri urlOrigin (some m) = urlOrigin (toUri m)) := by
  refine ⟨rfl, rfl, fun hm => ?_⟩
  simp [apiOrigin, hm]

theorem C1_apiOrigin_opaque_or_derived_witness :
    "/ip4/127.0.0.1/tcp/5001" ≠ "" ∧
    apiOrigin (fun _ => "http://127.0.0.1:5001") (fun u => u)
      (some "/ip4/127.0.0.1/tcp/5001") = "http://127.0.0.1:5001" :=
  ⟨by decide,
   (C1_apiOrigin_opaque_or_derived (fun _ => "http://127.0.0.1:5001")
     (fun u => u) "/ip4/127.0.0.1/tcp/5001").2.2 (by decide)⟩

/-- C2: at every reachable state at most one window is open; a `getWindow`
call while the stored reference is non-null returns that same instance and
changes nothing, and a new window (the next counter value) is created only
when the stored reference is null. -/
theorem C2_window_singleton (devId : String) (s : ModState)
    (hr : Reachable devId s) :
    s.openWindows.length ≤ 1 ∧
    (∀ w, s.window = some w → getWindow s = (w, s)) ∧
    (s.window = none →
      (getWindow s).1 = s.nextId ∧
      (getWindow s).2.window = some s.nextId ∧
      (getWindow s).2.nextId = s.nextId + 1) := by
  have hinv := reachable_inv hr
  refine ⟨?_, fun w hw => getWindow_fast s w hw, fun hw => ?_⟩
  · rw [hinv.openEq]
    cases s.window <;> simp [Option.toList]
  · have hg : getWindow s = (s.nextId, launchWindowBody "/" true false (createdState s)) := by
      unfold getWindow
      rw [hw]
    rw [hg]
    refine ⟨rfl, ?_, ?_⟩
    · rw [(launchWindowBody_frame _ _ _ _).1]
      simp [createdState, loadURL, updateLanguage]
    · rw [(launchWindowBody_frame _ _ _ _).2.1]
      simp [createdState, loadURL, updateLanguage]

theorem C2_window_singleton_witness :
    (sampleInit.openWindows.length ≤ 1 ∧
      (getWindow sampleInit).1 = sampleInit.nextId ∧
      (getWindow sampleInit).2.window = some sampleInit.nextId ∧
      (getWindow sampleInit).2.nextId = sampleInit.nextId + 1) ∧
    getWindow sampleOpen = (0, sampleOpen) :=
  ⟨⟨(C2_window_singleton "device-1" sampleInit (Reachable.init (some "en") none)).1,
    (C2_window_singleton "device-1" sampleInit (Reachable.init (some "en") none)).2.2 rfl⟩,
   (C2_window_singleton "device-1" sampleOpen
     ((Reachable.init (some "en") none).step (Step.getWin sampleInit))).2.1 0 rfl⟩

/-- C3 as stated is false: the interceptor checks the response-header
object under the single exact JS property name
`Access-Control-Allow-Origin`; a response carrying the header under the
equally valid lowercase wire spelling is delivered with the upstream value
untouched, not with the embedded page's origin. -/
theorem C3_counterexample_lowercase :
    onHeadersReceived
      (some [("access-control-allow-origin", JsVal.arr ["https://upstream.example"])]) =
      some [("access-control-allow-origin", JsVal.arr ["https://upstream.example"])] ∧
    jsGet [("access-control-allow-origin", JsVal.arr ["https://upstream.example"])]
      "access-control-allow-origin" = some (JsVal.arr ["https://upstream.example"]) ∧
    JsVal.arr ["https://upstream.example"] ≠ JsVal.str webuiOrigin :=
  ⟨rfl, rfl, by decide⟩

/-- C3 amended: for every inbound response whose header object carries a
truthy value under the exact spelling `Access-Control-Allow-Origin`, the
value delivered under that spelling is the embedded page's own origin and
all other header keys are left unchanged; other spellings of the header
name are not rewritten. -/
theorem C3_acao_overwritten_exact (hs : Headers) (v : JsVal)
    (hget : jsGet hs acao = some v) (hv : v.truthy) :
    onHeadersReceived (some hs) = some (jsSet hs acao (JsVal.str webuiOrigin)) ∧
    jsGet (jsSet hs acao (JsVal.str webuiOrigin)) acao = some (JsVal.str webuiOrigin) ∧
    ∀ k, k ≠ acao → jsGet (jsSet hs acao (JsVal.str webuiOrigin)) k = jsGet hs k := by
  refine ⟨?_, jsGet_jsSet_self hs acao (JsVal.str webuiOrigin),
    fun k hk => jsGet_jsSet_other hs acao k _ hk⟩
  show (match jsGet hs acao with
    | some v =>
      if v.truthy then some (jsSet hs acao (JsVal.str webuiOrigin)) else some hs
    | none => some hs) = some (jsSet hs acao (JsVal.str webuiOrigin))
  rw [hget]
  simp [hv]

theorem C3_acao_overwritten_exact_witness :
    onHeadersReceived (some sampleHeaders) =
      some (jsSet sampleHeaders acao (JsVal.str webuiOrigin)) ∧
    jsGet (jsSet sampleHeaders acao (JsVal.str webuiOrigin)) acao =
      some (JsVal.str webuiOrigin) ∧
    jsGet (jsSet sampleHeaders acao (JsVal.str webuiOrigin)) "Content-Type" =
      jsGet sampleHeaders "Content-Type" :=
  ⟨(C3_acao_overwritten_exact sampleHeaders
      (JsVal.arr ["https://upstream.example"]) rfl rfl).1,
   (C3_acao_overwritten_exact sampleHeaders
      (JsVal.arr ["https://upstream.example"]) rfl rfl).2.1,
   (C3_acao_overwritten_exact sampleHeaders
      (JsVal.arr ["https://upstream.example"]) rfl rfl).2.2 "Content-Type" (by decide)⟩

/-- C4: when the ipfsd message reports a daemon whose API address differs
from the remembered one, the remembered address and the URL object's `api`
query parameter are updated to the new address, and — when a window exists
to hold a page — the page is reloaded with the updated URL. -/
theorem C4_ipfsd_new_address (s : ModState) (a : String)
    (h : s.apiAddress ≠ some a) :
    (ipfsdHandler s (some a)).apiAddress = some a ∧
    (ipfsdHandler s (some a)).url.api = some a ∧
    (s.window.isSome →
      (ipfsdHandler s (some a)).loads =
        s.loads ++ [((ipfsdHandler s (some a)).url, some a)]) := by
  have hred : ipfsdHandler s (some a) =
      (if s.apiAddress = some a then s
       else if (updateLanguage { s with apiAddress := some a, url := { s.url with api := some a } }).window.isSome then
         loadURL (updateLanguage { s with apiAddress := some a, url := { s.url with api := some a } })
       else updateLanguage { s with apiAddress := some a, url := { s.url with api := some a } }) := rfl
  rw [hred, if_neg h]
  by_cases hw : s.window.isSome
  · rw [if_pos (by simpa [updateLanguage] using hw)]
    exact ⟨by simp [loadURL, updateLanguage], by simp [loadURL, updateLanguage],
      fun _ => by simp [loadURL, updateLanguage]⟩
  · rw [if_neg (by simpa [updateLanguage] using hw)]
    exact ⟨by simp [updateLanguage], by simp [updateLanguage],
      fun hww => absurd hww hw⟩

theorem C4_ipfsd_new_address_witness :
    (ipfsdHandler sampleOpen (some "/ip4/127.0.0.1/tcp/5001")).apiAddress =
      some "/ip4/127.0.0.1/tcp/5001" ∧
    (ipfsdHandler sampleOpen (some "/ip4/127.0.0.1/tcp/5001")).url.api =
      some "/ip4/127.0.0.1/tcp/5001" ∧
    (ipfsdHandler sampleOpen (some "/ip4/127.0.0.1/tcp/5001")).loads =
      sampleOpen.loads ++
        [((ipfsdHandler sampleOpen (some "/ip4/127.0.0.1/tcp/5001")).url,
          some "/ip4/127.0.0.1/tcp/5001")] :=
  ⟨(C4_ipfsd_new_address sampleOpen "/ip4/127.0.0.1/tcp/5001" (by decide)).1,
   (C4_ipfsd_new_address sampleOpen "/ip4/127.0.0.1/tcp/5001" (by decide)).2.1,
   (C4_ipfsd_new_address sampleOpen "/ip4/127.0.0.1/tcp/5001" (by decide)).2.2 rfl⟩

/-- C5: every outgoing request leaves the interceptor uncancelled, with its
`Origin` property set to `apiOrigin apiAddress` and its `User-Agent`
property set to the client identifier string, which contains both the
application version and the Electron version as substrings. -/
theorem C5_onBeforeSendHeaders_spec (toUri urlOrigin : String → String)
    (version electronVersion : String) (apiAddress : Option String)
    (requestHeaders : Headers) :
    (onBeforeSendHeaders toUri urlOrigin version electronVersion apiAddress requestHeaders).1 = false ∧
    jsGet (onBeforeSendHeaders toUri urlOrigin version electronVersion apiAddress requestHeaders).2 "Origin" =
      some (JsVal.str (apiOrigin toUri urlOrigin apiAddress)) ∧
    jsGet (onBeforeSendHeaders toUri urlOrigin version electronVersion apiAddress requestHeaders).2 "User-Agent" =
      some (JsVal.str (userAgent version electronVersion)) ∧
    (∃ pre post, userAgent version electronVersion = pre ++ version ++ post) ∧
    (∃ pre post, userAgent version electronVersion = pre ++ electronVersion ++ post) := by
  refine ⟨rfl, ?_, ?_,
    ⟨"ipfs-desktop/", " (Electron " ++ electronVersion ++ ")", ?_⟩,
    ⟨"ipfs-desktop/" ++ version ++ " (Electron ", ")", ?_⟩⟩
  · show jsGet (jsSet (jsSet requestHeaders "Origin"
      (JsVal.str (apiOrigin toUri urlOrigin apiAddress))) "User-Agent"
      (JsVal.str (userAgent version electronVersion))) "Origin" = _
    rw [jsGet_jsSet_other _ _ _ _ (by decide), jsGet_jsSet_self]
  · exact jsGet_jsSet_self _ _ _
  · simp [userAgent, String.append_assoc]
  · simp [userAgent, String.append_assoc]

/-- C6: at every reachable state, every URL that was ever loaded into the
window carried the device identifier as its `deviceId` parameter, a `lng`
parameter, the daemon API multiaddress as its `api` parameter whenever one
was known at load time, and a nonempty hash fragment; moreover the URL
object always reflects the device id and the remembered API address, and
navigating to a nonempty path puts that path in the hash fragment. -/
theorem C6_url_contract (devId : String) (s : ModState)
    (hr : Reachable devId s) :
    (∀ p ∈ s.loads, p.1.deviceId = some devId ∧ p.1.lng.isSome ∧
      (∀ a, p.2 = some a → p.1.api = some a) ∧ p.1.hash ≠ "") ∧
    s.url.deviceId = some devId ∧
    s.url.api = s.apiAddress ∧
    (∀ path focus forceRefresh, path ≠ "" →
      (launchWindow path focus forceRefresh s).url.hash = path) := by
  have hinv := reachable_inv hr
  refine ⟨fun p hp => ?_, hinv.devEq, hinv.apiEq,
    fun path focus forceRefresh hpath => ?_⟩
  · obtain ⟨h1, h2, h3, h4⟩ := hinv.loadsOk p hp
    exact ⟨h1, h2, fun a ha => by rw [h4, ha], h3⟩
  · unfold launchWindow
    rw [launchWindowBody_hash, if_neg hpath]

theorem C6_url_contract_witness :
    sampleLoad.1.deviceId = some "device-1" ∧
    sampleLoad.1.lng.isSome ∧
    sampleLoad.1.hash ≠ "" ∧
    sampleOpen.url.deviceId = some "device-1" ∧
    sampleOpen.url.api = sampleOpen.apiAddress ∧
    (launchWindow "/files" true false sampleOpen).url.hash = "/files" :=
  ⟨((C6_url_contract "device-1" sampleOpen
      ((Reachable.init (some "en") none).step (Step.getWin sampleInit))).1
        sampleLoad (by decide)).1,
   ((C6_url_contract "device-1" sampleOpen
      ((Reachable.init (some "en") none).step (Step.getWin sampleInit))).1
        sampleLoad (by decide)).2.1,
   ((C6_url_contract "device-1" sampleOpen
      ((Reachable.init (some "en") none).step (Step.getWin sampleInit))).1
        sampleLoad (by decide)).2.2.2,
   (C6_url_contract "device-1" sampleOpen
      ((Reachable.init (some "en") none).step (Step.getWin sampleInit))).2.1,
   (C6_url_contract "device-1" sampleOpen
      ((Reachable.init (some "en") none).step (Step.getWin sampleInit))).2.2.1,
   (C6_url_contract "device-1" sampleOpen
      ((Reachable.init (some "en") none).step (Step.getWin sampleInit))).2.2.2
     "/files" true false (by decide)⟩

/-- C7: when the ipfsd message reports no daemon, or a daemon whose API
address equals the remembered one, the handler leaves the whole module
state — URL object, remembered address, window, and load history —
unchanged, so no reload is triggered. -/
theorem C7_ipfsd_no_change (s : ModState) (info : Option String)
    (h : info = none ∨ info = s.apiAddress) : ipfsdHandler s info = s := by
  rcases h with h | h
  · rw [h]
    rfl
  · cases hi : info with
    | none => rfl
    | some a =>
      have ha : s.apiAddress = some a := by
        rw [← h, hi]
      show (if s.apiAddress = some a then s
        else if (updateLanguage { s with apiAddress := some a, url := { s.url with api := some a } }).window.isSome then
          loadURL (updateLanguage { s with apiAddress := some a, url := { s.url with api := some a } })
        else updateLanguage { s with apiAddress := some a, url := { s.url with api := some a } }) = s
      rw [if_pos ha]

theorem C7_ipfsd_no_change_witness :
    ipfsdHandler sampleOpen none = sampleOpen :=
  C7_ipfsd_no_change sampleOpen none (Or.inl rfl)

/-- C8: the crashed and unresponsive handlers only append a log line; the
window reference, URL object, remembered address, load history, open
windows, counters, settings, dock and focus state are all unchanged, and
no error value is produced. -/
theorem C8_crash_handlers_log_only (s : ModState) (e : String) :
    (crashedHandler s e).window = s.window ∧
    (crashedHandler s e).url = s.url ∧
    (crashedHandler s e).apiAddress = s.apiAddress ∧
    (crashedHandler s e).loads = s.loads ∧
    (crashedHandler s e).openWindows = s.openWindows ∧
    (crashedHandler s e).nextId = s.nextId ∧
    (crashedHandler s e).openWebUIAtLaunch = s.openWebUIAtLaunch ∧
    (crashedHandler s e).language = s.language ∧
    (crashedHandler s e).dockVisible = s.dockVisible ∧
    (crashedHandler s e).focused = s.focused ∧
    (crashedHandler s e).log = s.log ++ ["[web ui] crashed: " ++ e] ∧
    (unresponsiveHandler s e).window = s.window ∧
    (unresponsiveHandler s e).url = s.url ∧
    (unresponsiveHandler s e).apiAddress = s.apiAddress ∧
    (unresponsiveHandler s e).loads = s.loads ∧
    (unresponsiveHandler s e).openWindows = s.openWindows ∧
    (unresponsiveHandler s e).log = s.log ++ ["[web ui] unresponsive: " ++ e] :=
  ⟨rfl, rfl, rfl, rfl, rfl, rfl, rfl, rfl, rfl, rfl, rfl, rfl, rfl, rfl,
   rfl, rfl, rfl⟩

/-- C9: after the close handler runs on a state with an open window, the
singleton reference is null, and the next `getWindow` call creates and
returns a fresh window, different from the closed one. -/
theorem C9_close_resets_singleton (devId : String) (s : ModState) (w : Nat)
    (hr : Reachable devId s) (hw : s.window = some w) :
    (closeHandler s).window = none ∧
    (getWindow (closeHandler s)).2.window = some ((getWindow (closeHandler s)).1) ∧
    (getWindow (closeHandler s)).1 ≠ w := by
  have hinv := reachable_inv hr
  have hlt : w < s.nextId := hinv.winLt w hw
  have hc : (closeHandler s).window = none := by
    unfold closeHandler
    rw [hw]
  have hcn : (closeHandler s).nextId = s.nextId := by
    unfold closeHandler
    rw [hw]
  refine ⟨hc, getWindow_window _, ?_⟩
  have h1 : (getWindow (closeHandler s)).1 = (closeHandler s).nextId := by
    unfold getWindow
    rw [hc]
  rw [h1, hcn]
  exact ne_of_gt hlt

theorem C9_close_resets_singleton_witness :
    (closeHandler sampleOpen).window = none ∧
    (getWindow (closeHandler sampleOpen)).2.window =
      some ((getWindow (closeHandler sampleOpen)).1) ∧
    (getWindow (closeHandler sampleOpen)).1 ≠ 0 :=
  C9_close_resets_singleton "device-1" sampleOpen 0
    ((Reachable.init (some "en") none).step (Step.getWin sampleInit)) rfl

/-- C10: on first run (stored `openWebUIAtLaunch` is null) the module sets
the setting to true; the startup function the module returns launches the
window (leaving a window open) when the setting is truthy at the time it
runs, and does nothing at all otherwise. -/
theorem C10_first_run_default_and_startup (devId : String)
    (language : Option String) (cfg : Option Bool) (s : ModState) :
    (cfg = none → (initState devId language cfg).openWebUIAtLaunch = some true) ∧
    (s.openWebUIAtLaunch = some true →
      startup s = launchWindow "/" true false s ∧ (startup s).window.isSome) ∧
    (s.openWebUIAtLaunch ≠ some true → startup s = s) := by
  refine ⟨fun hc => ?_, fun ht => ?_, fun hf => ?_⟩
  · simp [initState, hc]
  · have he : startup s = launchWindow "/" true false s := by
      unfold startup
      rw [if_pos ht]
    refine ⟨he, ?_⟩
    rw [he]
    unfold launchWindow
    rw [(launchWindowBody_frame _ _ _ _).1, getWindow_window s]
    rfl
  · unfold startup
    rw [if_neg hf]

theorem C10_first_run_default_and_startup_witness :
    (initState "device-1" (some "en") none).openWebUIAtLaunch = some true ∧
    startup sampleInit = launchWindow "/" true false sampleInit ∧
    (startup sampleInit).window.isSome :=
  ⟨(C10_first_run_default_and_startup "device-1" (some "en") none sampleInit).1 rfl,
   ((C10_first_run_default_and_startup "device-1" (some "en") none sampleInit).2.1 rfl).1,
   ((C10_first_run_default_and_startup "device-1" (some "en") none sampleInit).2.1 rfl).2⟩

end WebUI
